import Mathlib

/-
Verification of the bounded stream JSON reconstructor from the
claude-code-sdk-rust repository.

Modelling conventions:
- A text line is a `List Char`; the byte length of a line is modelled by
  its character count (the repository's limits are only exercised on
  ASCII content in these claims).
- Rust `str::trim` is modelled by `trimChars`, dropping the whitespace
  characters space, tab, newline and carriage return from both ends.
- `serde_json::from_str::<HashMap<String, serde_json::Value>>` is
  modelled by `json_parse_obj`: a complete executable JSON grammar that
  succeeds exactly on a single top-level JSON object surrounded only by
  whitespace, returning the member list in parse order (lookups take the
  last occurrence of a key, matching HashMap insertion overwrite).
- Wall-clock measurements (the slow-parse advisory) are not modelled;
  the deterministic advisory conditions (oversized text block, buffer
  growth) are modelled as emitted log events so that non-interference
  claims about them are meaningful.
-/

/-! ## Characters and trimming -/

def lbrace : Char := Char.ofNat 123

def rbrace : Char := Char.ofNat 125

def lbrack : Char := Char.ofNat 91

def rbrack : Char := Char.ofNat 93

def isWsChar (c : Char) : Bool :=
  c == ' ' || c == '\t' || c == '\n' || c == '\r'

/-- Model of Rust `str::trim`: drop whitespace from both ends. -/
def trimChars (l : List Char) : List Char :=
  (l.dropWhile isWsChar).rdropWhile isWsChar

/-! ## JSON values -/

inductive Json where
  | null : Json
  | bool (b : Bool) : Json
  | num (lex : List Char) : Json
  | str (s : List Char) : Json
  | arr (items : List Json) : Json
  | obj (members : List (List Char × Json)) : Json

/-- The generic record unit: a string-keyed JSON-value mapping, kept in
parse order; later duplicate keys shadow earlier ones on lookup. -/
abbrev Record := List (List Char × Json)

/-! ## JSON parser (model of serde_json) -/

def skipWs (cs : List Char) : List Char := cs.dropWhile isWsChar

def hexVal (c : Char) : Option Nat :=
  if '0' ≤ c ∧ c ≤ '9' then some (c.toNat - 48)
  else if 'a' ≤ c ∧ c ≤ 'f' then some (c.toNat - 87)
  else if 'A' ≤ c ∧ c ≤ 'F' then some (c.toNat - 55)
  else none

def escChar (c : Char) : Option Char :=
  if c = '"' then some '"'
  else if c = '\\' then some '\\'
  else if c = '/' then some '/'
  else if c = 'b' then some (Char.ofNat 8)
  else if c = 'f' then some (Char.ofNat 12)
  else if c = 'n' then some '\n'
  else if c = 'r' then some '\r'
  else if c = 't' then some '\t'
  else none

/-- Parse the body of a JSON string after the opening quote, decoding
escapes and rejecting unescaped control characters. -/
def parseStringBody : List Char → Option (List Char × List Char)
  | [] => none
  | c :: rest =>
    if c = '"' then some ([], rest)
    else if c = '\\' then
      match rest with
      | [] => none
      | e :: rest2 =>
        if e = 'u' then
          match rest2 with
          | a :: b :: c2 :: d :: rest3 =>
            match hexVal a, hexVal b, hexVal c2, hexVal d with
            | some x, some y, some z, some w =>
              match parseStringBody rest3 with
              | some (s, r) =>
                some (Char.ofNat (((x * 16 + y) * 16 + z) * 16 + w) :: s, r)
              | none => none
            | _, _, _, _ => none
          | _ => none
        else
          match escChar e with
          | some ec =>
            match parseStringBody rest2 with
            | some (s, r) => some (ec :: s, r)
            | none => none
          | none => none
    else if c.toNat < 32 then none
    else
      match parseStringBody rest with
      | some (s, r) => some (c :: s, r)
      | none => none

def spanDigits (cs : List Char) : List Char × List Char :=
  cs.span (fun c => c.isDigit)

def parseFracPart : List Char → Option (List Char × List Char)
  | [] => some ([], [])
  | c :: r =>
    if c = '.' then
      match spanDigits r with
      | ([], _) => none
      | (ds, r2) => some (c :: ds, r2)
    else some ([], c :: r)

def parseExpPart : List Char → Option (List Char × List Char)
  | [] => some ([], [])
  | c :: r =>
    if c = 'e' || c = 'E' then
      match r with
      | [] => none
      | s :: r2 =>
        if s = '+' || s = '-' then
          match spanDigits r2 with
          | ([], _) => none
          | (ds, r3) => some (c :: s :: ds, r3)
        else
          match spanDigits (s :: r2) with
          | ([], _) => none
          | (ds, r3) => some (c :: ds, r3)
    else some ([], c :: r)

/-- Parse a JSON number, returning its lexeme and the rest of the input. -/
def parseNumber (cs : List Char) : Option (List Char × List Char) :=
  let p : List Char × List Char :=
    match cs with
    | c :: r => if c = '-' then ([c], r) else ([], cs)
    | [] => ([], [])
  match p.2 with
  | [] => none
  | c :: r =>
    if c = '0' then
      match parseFracPart r with
      | none => none
      | some (f, r2) =>
        match parseExpPart r2 with
        | none => none
        | some (e, r3) => some (p.1 ++ c :: (f ++ e), r3)
    else if c.isDigit then
      match spanDigits r with
      | (ds, r1) =>
        match parseFracPart r1 with
        | none => none
        | some (f, r2) =>
          match parseExpPart r2 with
          | none => none
          | some (e, r3) => some (p.1 ++ c :: (ds ++ f ++ e), r3)
    else none

mutual

def parseValue : Nat → List Char → Option (Json × List Char)
  | 0, _ => none
  | fuel + 1, cs0 =>
    match skipWs cs0 with
    | [] => none
    | c :: rest =>
      if c = lbrace then
        match parseObjBody fuel rest with
        | some (ms, r) => some (Json.obj ms, r)
        | none => none
      else if c = lbrack then
        match parseArrBody fuel rest with
        | some (xs, r) => some (Json.arr xs, r)
        | none => none
      else if c = '"' then
        match parseStringBody rest with
        | some (s, r) => some (Json.str s, r)
        | none => none
      else if c = 't' then
        match rest with
        | 'r' :: 'u' :: 'e' :: r => some (Json.bool true, r)
        | _ => none
      else if c = 'f' then
        match rest with
        | 'a' :: 'l' :: 's' :: 'e' :: r => some (Json.bool false, r)
        | _ => none
      else if c = 'n' then
        match rest with
        | 'u' :: 'l' :: 'l' :: r => some (Json.null, r)
        | _ => none
      else if c = '-' || c.isDigit then
        match parseNumber (c :: rest) with
        | some (lex, r) => some (Json.num lex, r)
        | none => none
      else none

/-- Parse the members of an object after the opening brace. -/
def parseObjBody : Nat → List Char → Option (Record × List Char)
  | 0, _ => none
  | fuel + 1, cs0 =>
    match skipWs cs0 with
    | [] => none
    | c :: rest =>
      if c = rbrace then some ([], rest)
      else if c = '"' then
        match parseStringBody rest with
        | none => none
        | some (key, r2) =>
          match skipWs r2 with
          | ':' :: r3 =>
            match parseValue fuel r3 with
            | none => none
            | some (v, r4) =>
              match parseObjMore fuel r4 with
              | some (ms, r5) => some ((key, v) :: ms, r5)
              | none => none
          | _ => none
      else none

/-- Parse subsequent object members: a comma and a member, or the
closing brace. -/
def parseObjMore : Nat → List Char → Option (Record × List Char)
  | 0, _ => none
  | fuel + 1, cs0 =>
    match skipWs cs0 with
    | [] => none
    | c :: rest =>
      if c = rbrace then some ([], rest)
      else if c = ',' then
        match skipWs rest with
        | c2 :: r2 =>
          if c2 = '"' then
            match parseStringBody r2 with
            | none => none
            | some (key, r3) =>
              match skipWs r3 with
              | ':' :: r4 =>
                match parseValue fuel r4 with
                | none => none
                | some (v, r5) =>
                  match parseObjMore fuel r5 with
                  | some (ms, r6) => some ((key, v) :: ms, r6)
                  | none => none
              | _ => none
          else none
        | [] => none
      else none

/-- Parse the elements of an array after the opening bracket. -/
def parseArrBody : Nat → List Char → Option (List Json × List Char)
  | 0, _ => none
  | fuel + 1, cs0 =>
    match skipWs cs0 with
    | [] => none
    | c :: rest =>
      if c = rbrack then some ([], rest)
      else
        match parseValue fuel (c :: rest) with
        | none => none
        | some (v, r2) =>
          match parseArrMore fuel r2 with
          | some (xs, r3) => some (v :: xs, r3)
          | none => none

/-- Parse subsequent array elements: a comma and an element, or the
closing bracket. -/
def parseArrMore : Nat → List Char → Option (List Json × List Char)
  | 0, _ => none
  | fuel + 1, cs0 =>
    match skipWs cs0 with
    | [] => none
    | c :: rest =>
      if c = rbrack then some ([], rest)
      else if c = ',' then
        match parseValue fuel rest with
        | none => none
        | some (v, r2) =>
          match parseArrMore fuel r2 with
          | some (xs, r3) => some (v :: xs, r3)
          | none => none
      else none

end

/-- Model of `serde_json::from_str::<HashMap<String, Value>>`: succeeds
exactly when the input is one complete top-level JSON object surrounded
only by whitespace. -/
def json_parse_obj (s : List Char) : Option Record :=
  let t := trimChars s
  match t with
  | [] => none
  | c :: rest =>
    if c = lbrace then
      match parseObjBody (2 * t.length + 2) rest with
      | some (ms, r) => if skipWs r = [] then some ms else none
      | none => none
    else none

/-- Model of `serde_json::from_str::<Value>` (used to state validity of
a top-level JSON value of any kind). -/
def json_parse_value (s : List Char) : Option Json :=
  let t := trimChars s
  match parseValue (2 * t.length + 2) t with
  | some (v, r) => if skipWs r = [] then some v else none
  | none => none

/-! ## Safety limits (src/config.rs) -/

structure SafetyLimits where
  max_line_size : Nat
  max_text_block_size : Nat
  max_buffer_size : Nat
  max_log_preview_chars : Nat
  max_buffered_messages : Nat
  json_parse_timeout_ms : Nat
deriving DecidableEq

/-- The `Default` impl for `SafetyLimits`. -/
def SafetyLimits.default : SafetyLimits :=
  ⟨10 * 1024 * 1024, 5 * 1024 * 1024, 50 * 1024 * 1024, 200, 100, 5000⟩

/-- `SafetyLimits::conservative`. -/
def SafetyLimits.conservative : SafetyLimits :=
  ⟨1024 * 1024, 512 * 1024, 10 * 1024 * 1024, 100, 50, 2000⟩

/-- `SafetyLimits::generous`. -/
def SafetyLimits.generous : SafetyLimits :=
  ⟨50 * 1024 * 1024, 25 * 1024 * 1024, 200 * 1024 * 1024, 500, 200, 10000⟩

/-- `SafetyLimits::is_line_size_safe`: `size <= self.max_line_size`. -/
abbrev SafetyLimits.is_line_size_safe (l : SafetyLimits) (size : Nat) : Prop :=
  size ≤ l.max_line_size

/-- `SafetyLimits::is_text_block_safe`: `size <= self.max_text_block_size`. -/
abbrev SafetyLimits.is_text_block_safe (l : SafetyLimits) (size : Nat) : Prop :=
  size ≤ l.max_text_block_size

/-! ## Errors (src/errors.rs, src/config.rs) -/

inductive SafetyError where
  | LineTooLarge (actual limit : Nat)
  | TextBlockTooLarge (actual limit : Nat)
  | BufferTooLarge (actual limit : Nat)
  | TooManyMessages (actual limit : Nat)
  | ParseTimeout (timeout_ms : Nat)
deriving DecidableEq

/-- The `ClaudeSDKError` variants, with payloads reduced to what the
claims observe (the stored line of a `CLIJSONDecodeError`, and the
`SafetyError` payload). -/
inductive ClaudeSDKError where
  | CLIConnection (msg : List Char)
  | CLINotFound (msg : List Char)
  | Process (msg : List Char) (exit_code : Option Int)
  | CLIJSONDecode (line : List Char)
  | Safety (e : SafetyError)
  | Io (msg : List Char)
deriving DecidableEq

/-- The preview shown by `Display for CLIJSONDecodeError`: the stored
line truncated at a fixed 100 characters, independent of any limits. -/
def cli_json_decode_preview (line : List Char) : List Char :=
  if 100 < line.length then line.take 100 ++ ['.', '.', '.'] else line

/-! ## Transport state and the reconstructor
(src/transport/subprocess_cli.rs) -/

/-- The mutable state of `SubprocessCLITransport` that the reconstructor
touches: the accumulated `json_buffer`. -/
structure TransportState where
  json_buffer : List Char
deriving DecidableEq

/-- Advisory (non-fatal) conditions, emitted to the log channel only.
The slow-parse advisory is wall-clock based and outside the model. -/
inductive LogEvent where
  | largeText (size limit : Nat)
  | bufferGrowth (size max : Nat)
deriving DecidableEq

/-- Result of one reconstructor step: the optional emitted item, the
successor state, and the advisory log events. -/
structure StepResult where
  out : Option (Except ClaudeSDKError Record)
  state : TransportState
  logs : List LogEvent

/-- Last-wins lookup, modelling `HashMap` insertion overwrite on
duplicate keys (and serde_json's object map). -/
def hm_get (m : Record) (k : List Char) : Option Json :=
  m.foldl (fun acc p => if p.1 = k then some p.2 else acc) none

/-- `Value::get` on an object. -/
def jobj_get (j : Json) (k : List Char) : Option Json :=
  match j with
  | Json.obj ms => hm_get ms k
  | _ => none

def msgKey : List Char := ['m', 'e', 's', 's', 'a', 'g', 'e']

def contentKey : List Char := ['c', 'o', 'n', 't', 'e', 'n', 't']

def textKey : List Char := ['t', 'e', 'x', 't']

/-- The advisory scan over `data["message"]["content"][i]["text"]`
performed after a successful parse (warnings only, never fatal). -/
def largeTextLogs (limits : SafetyLimits) (data : Record) : List LogEvent :=
  match hm_get data msgKey with
  | some msgObj =>
    match jobj_get msgObj contentKey with
    | some (Json.arr items) =>
      items.filterMap (fun item =>
        match jobj_get item textKey with
        | some (Json.str t) =>
          if ¬ limits.is_text_block_safe t.length then
            some (LogEvent.largeText t.length limits.max_text_block_size)
          else none
        | _ => none)
    | _ => []
  | none => []

/-- `SubprocessCLITransport::try_parse_json_buffer`. -/
def try_parse_json_buffer (limits : SafetyLimits) (st : TransportState) :
    StepResult :=
  if st.json_buffer = [] then ⟨none, st, []⟩
  else if ¬ limits.is_line_size_safe st.json_buffer.length then
    ⟨some (Except.error (ClaudeSDKError.Safety
        (SafetyError.LineTooLarge st.json_buffer.length limits.max_line_size))),
      ⟨[]⟩, []⟩
  else
    match json_parse_obj st.json_buffer with
    | some data => ⟨some (Except.ok data), ⟨[]⟩, largeTextLogs limits data⟩
    | none => ⟨none, st, []⟩

/-- The tail of `process_line` after the buffer mutation: attempt a
parse, and otherwise report buffer growth past half the ceiling. -/
def afterMutation (limits : SafetyLimits) (st : TransportState) : StepResult :=
  match try_parse_json_buffer limits st with
  | ⟨some result, st2, logs⟩ => ⟨some result, st2, logs⟩
  | ⟨none, st2, logs⟩ =>
    if limits.max_line_size / 2 < st2.json_buffer.length then
      ⟨none, st2, logs ++ [LogEvent.bufferGrowth
        st2.json_buffer.length limits.max_line_size]⟩
    else ⟨none, st2, logs⟩

/-- `SubprocessCLITransport::process_line`. -/
def process_line (limits : SafetyLimits) (st : TransportState)
    (line0 : List Char) : StepResult :=
  if trimChars line0 = [] then ⟨none, st, []⟩
  else if ¬ limits.is_line_size_safe (trimChars line0).length then
    ⟨some (Except.error (ClaudeSDKError.Safety
        (SafetyError.LineTooLarge (trimChars line0).length
          limits.max_line_size))), st, []⟩
  else if ((trimChars line0).head? = some lbrace
      ∨ (trimChars line0).head? = some lbrack) ∧ st.json_buffer = [] then
    afterMutation limits ⟨trimChars line0⟩
  else if st.json_buffer ≠ [] then
    afterMutation limits ⟨st.json_buffer ++ '\n' :: trimChars line0⟩
  else ⟨none, st, []⟩

/-- The end-of-stream handling in `receive_messages`: a final parse
attempt on a non-empty residual buffer, and a `CLIJSONDecodeError`
carrying the buffer content if it still fails, after which the buffer
is cleared. -/
def stream_end (limits : SafetyLimits) (st : TransportState) : StepResult :=
  if st.json_buffer ≠ [] then
    match try_parse_json_buffer limits st with
    | ⟨some result, st2, logs⟩ => ⟨some result, st2, logs⟩
    | ⟨none, _, logs⟩ =>
      ⟨some (Except.error (ClaudeSDKError.CLIJSONDecode st.json_buffer)),
        ⟨[]⟩, logs⟩
  else ⟨none, st, []⟩

/-- Feed a list of lines through `process_line`, collecting the per-call
outputs in order together with the final state. -/
def runLines (limits : SafetyLimits) :
    TransportState → List (List Char) →
    List (Option (Except ClaudeSDKError Record)) × TransportState
  | st, [] => ([], st)
  | st, l :: ls =>
    let r := process_line limits st l
    let rest := runLines limits r.state ls
    (r.out :: rest.1, rest.2)

/-- The buffer obtained from `b` by appending each further line
(trimmed) behind a newline separator, as the continuation branch of
`process_line` does. -/
def joinFrom (b : List Char) : List (List Char) → List Char
  | [] => b
  | l :: ls => joinFrom (b ++ '\n' :: trimChars l) ls

/-! ## Lemmas about trimming -/

theorem dropWhile_head_false (p : Char → Bool) :
    ∀ (l : List Char) (c : Char) (r : List Char),
      l.dropWhile p = c :: r → p c = false := by
  intro l
  induction l with
  | nil => intro c r h; simp [List.dropWhile] at h
  | cons a t ih =>
    intro c r h
    rw [List.dropWhile_cons] at h
    by_cases hp : p a = true
    · rw [if_pos hp] at h
      exact ih c r h
    · rw [if_neg hp] at h
      injection h with h1 h2
      subst h1
      simpa using hp

theorem trim_idem (l : List Char) : trimChars (trimChars l) = trimChars l := by
  unfold trimChars
  have h1 : ((l.dropWhile isWsChar).rdropWhile isWsChar).dropWhile isWsChar
      = (l.dropWhile isWsChar).rdropWhile isWsChar := by
    match hm : (l.dropWhile isWsChar).rdropWhile isWsChar with
    | [] => simp
    | c :: t2 =>
      obtain ⟨s, hs⟩ := List.rdropWhile_prefix isWsChar (l.dropWhile isWsChar)
      rw [hm] at hs
      have hc : isWsChar c = false :=
        dropWhile_head_false isWsChar l c (t2 ++ s) (by rw [← hs]; rfl)
      rw [List.dropWhile_cons, hc]
      simp
  rw [h1, List.rdropWhile_idempotent]

theorem trim_head (l : List Char) (c : Char) (hc : isWsChar c = false)
    (h : l.head? = some c) :
    trimChars l ≠ [] ∧ (trimChars l).head? = some c := by
  obtain ⟨r, rfl⟩ : ∃ r, l = c :: r := by
    cases l with
    | nil => simp at h
    | cons a t => simp at h; exact ⟨t, by rw [h]⟩
  have hdrop : (c :: r).dropWhile isWsChar = c :: r := by
    rw [List.dropWhile_cons, hc]
    simp
  unfold trimChars
  rw [hdrop]
  have hne : (c :: r).rdropWhile isWsChar ≠ [] := by
    intro hnil
    rw [List.rdropWhile_eq_nil_iff] at hnil
    have := hnil c (by simp)
    rw [hc] at this
    exact Bool.noConfusion this
  refine ⟨hne, ?_⟩
  obtain ⟨s, hs⟩ := List.rdropWhile_prefix isWsChar (c :: r)
  obtain ⟨x, xs, hm⟩ : ∃ x xs, (c :: r).rdropWhile isWsChar = x :: xs := by
    cases hmm : (c :: r).rdropWhile isWsChar with
    | nil => exact absurd hmm hne
    | cons x xs => exact ⟨x, xs, rfl⟩
  rw [hm] at hs
  have h5 : x :: (xs ++ s) = c :: r := by rw [← hs]; rfl
  injection h5 with h6 h7
  rw [hm, h6]
  simp

theorem trim_length_le (l : List Char) : (trimChars l).length ≤ l.length := by
  obtain ⟨s, hs⟩ := List.rdropWhile_prefix isWsChar (l.dropWhile isWsChar)
  obtain ⟨u, hu⟩ := List.dropWhile_suffix (l := l) isWsChar
  have h1 := congrArg List.length hs
  have h2 := congrArg List.length hu
  simp only [List.length_append] at h1 h2
  unfold trimChars
  omega

theorem json_parse_obj_trim (s : List Char) :
    json_parse_obj (trimChars s) = json_parse_obj s := by
  unfold json_parse_obj
  rw [trim_idem]

/-- A buffer whose first character is `[` never parses as a top-level
object (the parse target is a string-keyed map). -/
theorem json_parse_obj_lbrack (b : List Char) (h : b.head? = some lbrack) :
    json_parse_obj b = none := by
  obtain ⟨hne, hhead⟩ := trim_head b lbrack (by decide) h
  obtain ⟨c, rest, hm⟩ : ∃ c rest, trimChars b = c :: rest := by
    cases hmm : trimChars b with
    | nil => exact absurd hmm hne
    | cons c rest => exact ⟨c, rest, rfl⟩
  rw [hm] at hhead
  simp only [List.head?_cons, Option.some.injEq] at hhead
  subst hhead
  simp only [json_parse_obj, hm]
  rw [if_neg (by decide)]

/-! ## Step lemmas for the reconstructor -/

theorem try_parse_empty (limits : SafetyLimits) (st : TransportState)
    (h : st.json_buffer = []) :
    try_parse_json_buffer limits st = ⟨none, st, []⟩ := by
  unfold try_parse_json_buffer
  rw [if_pos h]

theorem try_parse_too_large (limits : SafetyLimits) (st : TransportState)
    (h : st.json_buffer ≠ [])
    (h2 : ¬ limits.is_line_size_safe st.json_buffer.length) :
    try_parse_json_buffer limits st
      = ⟨some (Except.error (ClaudeSDKError.Safety
          (SafetyError.LineTooLarge st.json_buffer.length
            limits.max_line_size))), ⟨[]⟩, []⟩ := by
  unfold try_parse_json_buffer
  rw [if_neg h, if_pos h2]

theorem try_parse_ok (limits : SafetyLimits) (st : TransportState)
    (d : Record) (h : st.json_buffer ≠ [])
    (h2 : limits.is_line_size_safe st.json_buffer.length)
    (h3 : json_parse_obj st.json_buffer = some d) :
    try_parse_json_buffer limits st
      = ⟨some (Except.ok d), ⟨[]⟩, largeTextLogs limits d⟩ := by
  unfold try_parse_json_buffer
  rw [if_neg h, if_neg (not_not_intro h2), h3]

theorem try_parse_incomplete (limits : SafetyLimits) (st : TransportState)
    (h : st.json_buffer ≠ [])
    (h2 : limits.is_line_size_safe st.json_buffer.length)
    (h3 : json_parse_obj st.json_buffer = none) :
    try_parse_json_buffer limits st = ⟨none, st, []⟩ := by
  unfold try_parse_json_buffer
  rw [if_neg h, if_neg (not_not_intro h2), h3]

theorem afterMutation_ok (limits : SafetyLimits) (st : TransportState)
    (d : Record) (h : st.json_buffer ≠ [])
    (h2 : limits.is_line_size_safe st.json_buffer.length)
    (h3 : json_parse_obj st.json_buffer = some d) :
    afterMutation limits st
      = ⟨some (Except.ok d), ⟨[]⟩, largeTextLogs limits d⟩ := by
  unfold afterMutation
  rw [try_parse_ok limits st d h h2 h3]

theorem afterMutation_too_large (limits : SafetyLimits) (st : TransportState)
    (h : st.json_buffer ≠ [])
    (h2 : ¬ limits.is_line_size_safe st.json_buffer.length) :
    afterMutation limits st
      = ⟨some (Except.error (ClaudeSDKError.Safety
          (SafetyError.LineTooLarge st.json_buffer.length
            limits.max_line_size))), ⟨[]⟩, []⟩ := by
  unfold afterMutation
  rw [try_parse_too_large limits st h h2]

theorem afterMutation_incomplete (limits : SafetyLimits) (st : TransportState)
    (h : st.json_buffer ≠ [])
    (h2 : limits.is_line_size_safe st.json_buffer.length)
    (h3 : json_parse_obj st.json_buffer = none) :
    afterMutation limits st
      = ⟨none, st, if limits.max_line_size / 2 < st.json_buffer.length then
          [LogEvent.bufferGrowth st.json_buffer.length limits.max_line_size]
        else []⟩ := by
  unfold afterMutation
  rw [try_parse_incomplete limits st h h2 h3]
  show (if limits.max_line_size / 2 < st.json_buffer.length then
      (⟨none, st, [] ++ [LogEvent.bufferGrowth st.json_buffer.length
        limits.max_line_size]⟩ : StepResult)
    else ⟨none, st, []⟩) = _
  by_cases hg : limits.max_line_size / 2 < st.json_buffer.length
  · rw [if_pos hg, if_pos hg]
    rfl
  · rw [if_neg hg, if_neg hg]

theorem process_line_trim_empty (limits : SafetyLimits) (st : TransportState)
    (line0 : List Char) (h : trimChars line0 = []) :
    process_line limits st line0 = ⟨none, st, []⟩ := by
  unfold process_line
  rw [if_pos h]

theorem process_line_too_large (limits : SafetyLimits) (st : TransportState)
    (line0 : List Char) (h : trimChars line0 ≠ [])
    (h2 : ¬ limits.is_line_size_safe (trimChars line0).length) :
    process_line limits st line0
      = ⟨some (Except.error (ClaudeSDKError.Safety
          (SafetyError.LineTooLarge (trimChars line0).length
            limits.max_line_size))), st, []⟩ := by
  unfold process_line
  rw [if_neg h, if_pos h2]

theorem process_line_start (limits : SafetyLimits) (st : TransportState)
    (line0 : List Char) (h : trimChars line0 ≠ [])
    (h2 : limits.is_line_size_safe (trimChars line0).length)
    (h3 : (trimChars line0).head? = some lbrace
      ∨ (trimChars line0).head? = some lbrack)
    (h4 : st.json_buffer = []) :
    process_line limits st line0 = afterMutation limits ⟨trimChars line0⟩ := by
  unfold process_line
  rw [if_neg h, if_neg (not_not_intro h2), if_pos ⟨h3, h4⟩]

theorem process_line_cont (limits : SafetyLimits) (st : TransportState)
    (line0 : List Char) (h : trimChars line0 ≠ [])
    (h2 : limits.is_line_size_safe (trimChars line0).length)
    (h4 : st.json_buffer ≠ []) :
    process_line limits st line0
      = afterMutation limits ⟨st.json_buffer ++ '\n' :: trimChars line0⟩ := by
  unfold process_line
  rw [if_neg h, if_neg (not_not_intro h2),
    if_neg (fun hc => h4 hc.2), if_pos h4]

theorem process_line_ignore (limits : SafetyLimits) (st : TransportState)
    (line0 : List Char) (h : trimChars line0 ≠ [])
    (h2 : limits.is_line_size_safe (trimChars line0).length)
    (h3 : ¬ ((trimChars line0).head? = some lbrace
      ∨ (trimChars line0).head? = some lbrack))
    (h4 : st.json_buffer = []) :
    process_line limits st line0 = ⟨none, st, []⟩ := by
  unfold process_line
  rw [if_neg h, if_neg (not_not_intro h2),
    if_neg (fun hc => h3 hc.1), if_neg (not_not_intro h4)]

theorem stream_end_empty (limits : SafetyLimits) (st : TransportState)
    (h : st.json_buffer = []) : stream_end limits st = ⟨none, st, []⟩ := by
  unfold stream_end
  rw [if_neg (not_not_intro h)]

theorem stream_end_malformed (limits : SafetyLimits) (st : TransportState)
    (h : st.json_buffer ≠ [])
    (h2 : limits.is_line_size_safe st.json_buffer.length)
    (h3 : json_parse_obj st.json_buffer = none) :
    stream_end limits st
      = ⟨some (Except.error (ClaudeSDKError.CLIJSONDecode st.json_buffer)),
          ⟨[]⟩, []⟩ := by
  unfold stream_end
  rw [if_pos h, try_parse_incomplete limits st h h2 h3]

/-! ## Claim theorems -/

/-- Claim C10: the three `SafetyLimits` presets have exactly the
specified numeric values, and the severity ordering
conservative ≤ default ≤ generous holds on every numeric field. -/
theorem c10_presets :
    (SafetyLimits.default.max_line_size = 10 * 1024 * 1024
      ∧ SafetyLimits.default.max_text_block_size = 5 * 1024 * 1024
      ∧ SafetyLimits.default.max_buffer_size = 50 * 1024 * 1024
      ∧ SafetyLimits.default.max_buffered_messages = 100
      ∧ SafetyLimits.default.json_parse_timeout_ms = 5000
      ∧ SafetyLimits.default.max_log_preview_chars = 200)
    ∧ (SafetyLimits.conservative.max_line_size = 1024 * 1024
      ∧ SafetyLimits.conservative.max_text_block_size = 512 * 1024
      ∧ SafetyLimits.conservative.max_buffer_size = 10 * 1024 * 1024
      ∧ SafetyLimits.conservative.max_buffered_messages = 50
      ∧ SafetyLimits.conservative.json_parse_timeout_ms = 2000
      ∧ SafetyLimits.conservative.max_log_preview_chars = 100)
    ∧ (SafetyLimits.generous.max_line_size = 50 * 1024 * 1024
      ∧ SafetyLimits.generous.max_text_block_size = 25 * 1024 * 1024
      ∧ SafetyLimits.generous.max_buffer_size = 200 * 1024 * 1024
      ∧ SafetyLimits.generous.max_buffered_messages = 200
      ∧ SafetyLimits.generous.json_parse_timeout_ms = 10000
      ∧ SafetyLimits.generous.max_log_preview_chars = 500)
    ∧ (SafetyLimits.conservative.max_line_size
        ≤ SafetyLimits.default.max_line_size
      ∧ SafetyLimits.conservative.max_text_block_size
        ≤ SafetyLimits.default.max_text_block_size
      ∧ SafetyLimits.conservative.max_buffer_size
        ≤ SafetyLimits.default.max_buffer_size
      ∧ SafetyLimits.conservative.max_buffered_messages
        ≤ SafetyLimits.default.max_buffered_messages
      ∧ SafetyLimits.conservative.json_parse_timeout_ms
        ≤ SafetyLimits.default.json_parse_timeout_ms
      ∧ SafetyLimits.conservative.max_log_preview_chars
        ≤ SafetyLimits.default.max_log_preview_chars)
    ∧ (SafetyLimits.default.max_line_size
        ≤ SafetyLimits.generous.max_line_size
      ∧ SafetyLimits.default.max_text_block_size
        ≤ SafetyLimits.generous.max_text_block_size
      ∧ SafetyLimits.default.max_buffer_size
        ≤ SafetyLimits.generous.max_buffer_size
      ∧ SafetyLimits.default.max_buffered_messages
        ≤ SafetyLimits.generous.max_buffered_messages
      ∧ SafetyLimits.default.json_parse_timeout_ms
        ≤ SafetyLimits.generous.json_parse_timeout_ms
      ∧ SafetyLimits.default.max_log_preview_chars
        ≤ SafetyLimits.generous.max_log_preview_chars) := by
  decide

/-- Claim C1 (counterexample): with `max_line_size = 3` and a non-empty
buffer, an oversized single line makes `process_line` return `Some`
(a fatal `LineTooLarge`) while the buffer stays non-empty, refuting the
claim that the buffer is empty after every `Some` outcome. -/
theorem c1_counterexample :
    (process_line ⟨3, 1000, 1000, 10, 10, 1000⟩ ⟨[lbrace]⟩
      ['a', 'b', 'c', 'd']).out.isSome = true
    ∧ (process_line ⟨3, 1000, 1000, 10, 10, 1000⟩ ⟨[lbrace]⟩
      ['a', 'b', 'c', 'd']).state.json_buffer ≠ [] := by
  constructor
  · decide
  · decide

/-- Claim C1 (amended): whenever `process_line` returns `Some`, the
buffer afterwards is empty, except when the `Some` is the fatal
`LineTooLarge` for an oversized single line, in which case the whole
state is left unchanged (so the buffer is empty only if it already
was). -/
theorem c1_amended (limits : SafetyLimits) (st : TransportState)
    (line0 : List Char) (r : Except ClaudeSDKError Record)
    (h : (process_line limits st line0).out = some r) :
    (process_line limits st line0).state.json_buffer = []
    ∨ ((process_line limits st line0).state = st
      ∧ ¬ limits.is_line_size_safe (trimChars line0).length) := by
  by_cases h1 : trimChars line0 = []
  · rw [process_line_trim_empty limits st line0 h1] at h
    exact absurd h (by simp)
  by_cases h2 : limits.is_line_size_safe (trimChars line0).length
  · by_cases h4 : st.json_buffer = []
    · by_cases h3 : (trimChars line0).head? = some lbrace
        ∨ (trimChars line0).head? = some lbrack
      · rw [process_line_start limits st line0 h1 h2 h3 h4] at h ⊢
        cases hp : json_parse_obj (trimChars line0) with
        | some d =>
          rw [afterMutation_ok limits ⟨trimChars line0⟩ d h1 h2 hp]
          exact Or.inl rfl
        | none =>
          rw [afterMutation_incomplete limits ⟨trimChars line0⟩ h1 h2 hp] at h
          exact absurd h (by simp)
      · rw [process_line_ignore limits st line0 h1 h2 h3 h4] at h
        exact absurd h (by simp)
    · rw [process_line_cont limits st line0 h1 h2 h4] at h ⊢
      by_cases h5 : limits.is_line_size_safe
        (st.json_buffer ++ '\n' :: trimChars line0).length
      · cases hp : json_parse_obj
          (st.json_buffer ++ '\n' :: trimChars line0) with
        | some d =>
          rw [afterMutation_ok limits ⟨st.json_buffer ++ '\n' :: trimChars line0⟩
            d (by simp) h5 hp]
          exact Or.inl rfl
        | none =>
          rw [afterMutation_incomplete limits
            ⟨st.json_buffer ++ '\n' :: trimChars line0⟩ (by simp) h5 hp] at h
          exact absurd h (by simp)
      · rw [afterMutation_too_large limits
          ⟨st.json_buffer ++ '\n' :: trimChars line0⟩ (by simp) h5]
        exact Or.inl rfl
  · rw [process_line_too_large limits st line0 h1 h2]
    exact Or.inr ⟨rfl, h2⟩

/-- Witness for C1 (amended) at a concrete successfully parsed line. -/
theorem c1_witness :
    (process_line SafetyLimits.default ⟨[]⟩ [lbrace, rbrace]).state.json_buffer
      = []
    ∨ ((process_line SafetyLimits.default ⟨[]⟩ [lbrace, rbrace]).state = ⟨[]⟩
      ∧ ¬ SafetyLimits.default.is_line_size_safe
        (trimChars [lbrace, rbrace]).length) :=
  c1_amended SafetyLimits.default ⟨[]⟩ [lbrace, rbrace] (Except.ok []) rfl

/-- Claim C3: a single line that begins with `{`, is valid JSON, and is
within `max_line_size` parses immediately from an empty buffer, and the
buffer is empty afterwards. -/
theorem c3_single_line (limits : SafetyLimits) (s : List Char) (v : Record)
    (hhead : s.head? = some lbrace)
    (hsize : s.length ≤ limits.max_line_size)
    (hparse : json_parse_obj s = some v) :
    (process_line limits ⟨[]⟩ s).out = some (Except.ok v)
    ∧ (process_line limits ⟨[]⟩ s).state.json_buffer = [] := by
  obtain ⟨hne, hth⟩ := trim_head s lbrace (by decide) hhead
  have hts : limits.is_line_size_safe (trimChars s).length :=
    le_trans (trim_length_le s) hsize
  have hp2 : json_parse_obj (trimChars s) = some v := by
    rw [json_parse_obj_trim]
    exact hparse
  rw [process_line_start limits ⟨[]⟩ s hne hts (Or.inl hth) rfl]
  rw [afterMutation_ok limits ⟨trimChars s⟩ v hne hts hp2]
  exact ⟨rfl, rfl⟩

/-- Witness for C3 at a concrete single-line object. -/
theorem c3_witness :
    (process_line SafetyLimits.default ⟨[]⟩
      [lbrace, '"', 'a', '"', ':', '1', rbrace]).out
      = some (Except.ok [(['a'], Json.num ['1'])])
    ∧ (process_line SafetyLimits.default ⟨[]⟩
      [lbrace, '"', 'a', '"', ':', '1', rbrace]).state.json_buffer = [] :=
  c3_single_line SafetyLimits.default [lbrace, '"', 'a', '"', ':', '1', rbrace]
    [(['a'], Json.num ['1'])] rfl (by decide) rfl

/-- Claim C4 (counterexample): a raw line of 4 bytes under a 3-byte
`max_line_size` — whose trailing whitespace makes the trimmed line fit —
produces a successful record instead of the claimed `LineTooLarge`. -/
theorem c4_counterexample :
    ([lbrace, rbrace, ' ', ' '] : List Char).length = 4
    ∧ (⟨3, 1000, 1000, 10, 10, 1000⟩ : SafetyLimits).max_line_size < 4
    ∧ (process_line ⟨3, 1000, 1000, 10, 10, 1000⟩ ⟨[]⟩
        [lbrace, rbrace, ' ', ' ']).out = some (Except.ok []) := by
  exact ⟨rfl, by decide, rfl⟩

/-- Claim C4 (amended): the single-line size check applies to the line
after trimming whitespace: an oversized trimmed line yields a fatal
`LineTooLarge` with `actual` the trimmed length and `limit` the
configured ceiling, independent of classification, leaving the state
unchanged; and when a continuation makes the accumulated buffer exceed
`max_line_size`, the buffer is cleared and `LineTooLarge` is returned
with `actual` equal to the buffer length — in both cases regardless of
whether the content would otherwise be valid JSON. -/
theorem c4_amended (limits : SafetyLimits) (st : TransportState)
    (line0 : List Char) :
    (trimChars line0 ≠ [] →
      ¬ limits.is_line_size_safe (trimChars line0).length →
      process_line limits st line0
        = ⟨some (Except.error (ClaudeSDKError.Safety
            (SafetyError.LineTooLarge (trimChars line0).length
              limits.max_line_size))), st, []⟩)
    ∧ (st.json_buffer ≠ [] → trimChars line0 ≠ [] →
      limits.is_line_size_safe (trimChars line0).length →
      ¬ limits.is_line_size_safe
        (st.json_buffer ++ '\n' :: trimChars line0).length →
      process_line limits st line0
        = ⟨some (Except.error (ClaudeSDKError.Safety
            (SafetyError.LineTooLarge
              (st.json_buffer ++ '\n' :: trimChars line0).length
              limits.max_line_size))), ⟨[]⟩, []⟩) := by
  constructor
  · intro h1 h2
    exact process_line_too_large limits st line0 h1 h2
  · intro h4 h1 h2 h5
    rw [process_line_cont limits st line0 h1 h2 h4]
    exact afterMutation_too_large limits
      ⟨st.json_buffer ++ '\n' :: trimChars line0⟩ (by simp) h5

/-- Witness for C4 (amended): both conjuncts at concrete inputs. -/
theorem c4_witness :
    process_line ⟨3, 1000, 1000, 10, 10, 1000⟩ ⟨[]⟩ ['a', 'b', 'c', 'd']
      = ⟨some (Except.error (ClaudeSDKError.Safety
          (SafetyError.LineTooLarge
            (trimChars ['a', 'b', 'c', 'd']).length 3))), ⟨[]⟩, []⟩
    ∧ process_line ⟨7, 1000, 1000, 10, 10, 1000⟩ ⟨[lbrace]⟩
        ['"', 'a', '"', ':', '1', rbrace]
      = ⟨some (Except.error (ClaudeSDKError.Safety
          (SafetyError.LineTooLarge
            ([lbrace] ++ '\n'
              :: trimChars ['"', 'a', '"', ':', '1', rbrace]).length 7))),
          ⟨[]⟩, []⟩ :=
  ⟨(c4_amended ⟨3, 1000, 1000, 10, 10, 1000⟩ ⟨[]⟩ ['a', 'b', 'c', 'd']).1
      (by decide) (by decide),
   (c4_amended ⟨7, 1000, 1000, 10, 10, 1000⟩ ⟨[lbrace]⟩
      ['"', 'a', '"', ':', '1', rbrace]).2
      (by decide) (by decide) (by decide) (by decide)⟩

/-- Claim C5 (counterexample): with `max_log_preview_chars = 2`, the
malformed-JSON error emitted at stream end carries the full 4-character
buffer, not the buffer truncated to the configured preview length. -/
theorem c5_counterexample :
    (stream_end ⟨1000, 1000, 1000, 2, 10, 1000⟩ ⟨['w', 'x', 'y', 'z']⟩).out
      = some (Except.error (ClaudeSDKError.CLIJSONDecode ['w', 'x', 'y', 'z']))
    ∧ ¬ (stream_end ⟨1000, 1000, 1000, 2, 10, 1000⟩
        ⟨['w', 'x', 'y', 'z']⟩).out
      = some (Except.error (ClaudeSDKError.CLIJSONDecode
          (List.take 2 ['w', 'x', 'y', 'z']))) := by
  constructor
  · rfl
  · intro hcl
    have h0 : (stream_end ⟨1000, 1000, 1000, 2, 10, 1000⟩
        ⟨['w', 'x', 'y', 'z']⟩).out
        = some (Except.error (ClaudeSDKError.CLIJSONDecode
          ['w', 'x', 'y', 'z'])) := rfl
    rw [h0] at hcl
    injection hcl with h1
    injection h1 with h2
    injection h2 with h3
    exact absurd h3 (by decide)

/-- Claim C5 (amended): at stream end with a non-empty buffer that
still fails to parse, a fatal `CLIJSONDecode` error is emitted whose
payload is the full buffer content (the 100-character truncation of
`cli_json_decode_preview` is a fixed display concern, not governed by
`max_log_preview_chars`), and the buffer is cleared afterwards. -/
theorem c5_amended (limits : SafetyLimits) (st : TransportState)
    (h : st.json_buffer ≠ [])
    (h2 : limits.is_line_size_safe st.json_buffer.length)
    (h3 : json_parse_obj st.json_buffer = none) :
    stream_end limits st
      = ⟨some (Except.error (ClaudeSDKError.CLIJSONDecode st.json_buffer)),
          ⟨[]⟩, []⟩ :=
  stream_end_malformed limits st h h2 h3

/-- Witness for C5 (amended) at a concrete malformed residual buffer. -/
theorem c5_witness :
    stream_end SafetyLimits.default ⟨[lbrace, 'z']⟩
      = ⟨some (Except.error (ClaudeSDKError.CLIJSONDecode [lbrace, 'z'])),
          ⟨[]⟩, []⟩ :=
  c5_amended SafetyLimits.default ⟨[lbrace, 'z']⟩ (by decide) (by decide) rfl

/-- Claim C8 (counterexample): an oversized non-JSON line with an empty
accumulator is not ignored — it triggers the fatal `LineTooLarge` path
before classification, so `process_line` does not return `None`. -/
theorem c8_counterexample :
    (['a', 'b', 'c', 'd'] : List Char).head? ≠ some lbrace
    ∧ (['a', 'b', 'c', 'd'] : List Char).head? ≠ some lbrack
    ∧ (process_line ⟨3, 1000, 1000, 10, 10, 1000⟩ ⟨[]⟩
        ['a', 'b', 'c', 'd']).out ≠ none := by
  refine ⟨by decide, by decide, ?_⟩
  intro hn
  have h0 : (process_line ⟨3, 1000, 1000, 10, 10, 1000⟩ ⟨[]⟩
      ['a', 'b', 'c', 'd']).out.isSome = true := by decide
  rw [hn] at h0
  exact Bool.noConfusion h0

/-- Claim C8 (amended): a line that is empty after trimming is always
ignored with the whole state unchanged; a line whose trimmed form is
within `max_line_size` and does not begin with `{` or `[` while the
accumulator is empty is likewise ignored with the state unchanged — so
such lines never appear in, nor corrupt, any emitted record. -/
theorem c8_amended (limits : SafetyLimits) (st : TransportState)
    (line0 : List Char) :
    (trimChars line0 = [] → process_line limits st line0 = ⟨none, st, []⟩)
    ∧ (st.json_buffer = [] → trimChars line0 ≠ [] →
      limits.is_line_size_safe (trimChars line0).length →
      (trimChars line0).head? ≠ some lbrace →
      (trimChars line0).head? ≠ some lbrack →
      process_line limits st line0 = ⟨none, st, []⟩) := by
  constructor
  · exact process_line_trim_empty limits st line0
  · intro h4 h1 h2 ha hb
    exact process_line_ignore limits st line0 h1 h2
      (fun hc => hc.elim ha hb) h4

/-- Witness for C8 (amended): a whitespace-only line and a diagnostic
line at concrete inputs. -/
theorem c8_witness :
    process_line SafetyLimits.default ⟨[lbrace]⟩ [' ', '\t', ' ']
      = ⟨none, ⟨[lbrace]⟩, []⟩
    ∧ process_line SafetyLimits.default ⟨[]⟩ ['h', 'i']
      = ⟨none, ⟨[]⟩, []⟩ :=
  ⟨(c8_amended SafetyLimits.default ⟨[lbrace]⟩ [' ', '\t', ' ']).1 (by decide),
   (c8_amended SafetyLimits.default ⟨[]⟩ ['h', 'i']).2 rfl
     (by decide) (by decide) (by decide) (by decide)⟩

/-- Claim C6: mid-stream, every fatal error `process_line` can return
is a `LineTooLarge` (never a JSON-decode error), and a parse failure on
the accumulated buffer is treated as incomplete — `process_line`
returns `None` and retains the buffer, both in the continuation case
and when a fresh accumulation fails to parse. -/
theorem c6_midstream (limits : SafetyLimits) (st : TransportState)
    (line0 : List Char) :
    (∀ e, (process_line limits st line0).out = some (Except.error e) →
      ∃ a b, e = ClaudeSDKError.Safety (SafetyError.LineTooLarge a b))
    ∧ (st.json_buffer ≠ [] → trimChars line0 ≠ [] →
      limits.is_line_size_safe (trimChars line0).length →
      limits.is_line_size_safe
        (st.json_buffer ++ '\n' :: trimChars line0).length →
      json_parse_obj (st.json_buffer ++ '\n' :: trimChars line0) = none →
      (process_line limits st line0).out = none
      ∧ (process_line limits st line0).state.json_buffer
        = st.json_buffer ++ '\n' :: trimChars line0)
    ∧ (st.json_buffer = [] → trimChars line0 ≠ [] →
      limits.is_line_size_safe (trimChars line0).length →
      ((trimChars line0).head? = some lbrace
        ∨ (trimChars line0).head? = some lbrack) →
      json_parse_obj (trimChars line0) = none →
      (process_line limits st line0).out = none
      ∧ (process_line limits st line0).state.json_buffer
        = trimChars line0) := by
  refine ⟨?_, ?_, ?_⟩
  · intro e h
    by_cases h1 : trimChars line0 = []
    · rw [process_line_trim_empty limits st line0 h1] at h
      exact absurd h (by simp)
    by_cases h2 : limits.is_line_size_safe (trimChars line0).length
    · by_cases h4 : st.json_buffer = []
      · by_cases h3 : (trimChars line0).head? = some lbrace
          ∨ (trimChars line0).head? = some lbrack
        · rw [process_line_start limits st line0 h1 h2 h3 h4] at h
          cases hp : json_parse_obj (trimChars line0) with
          | some d =>
            rw [afterMutation_ok limits ⟨trimChars line0⟩ d h1 h2 hp] at h
            simp at h
          | none =>
            rw [afterMutation_incomplete limits ⟨trimChars line0⟩
              h1 h2 hp] at h
            exact absurd h (by simp)
        · rw [process_line_ignore limits st line0 h1 h2 h3 h4] at h
          exact absurd h (by simp)
      · rw [process_line_cont limits st line0 h1 h2 h4] at h
        by_cases h5 : limits.is_line_size_safe
          (st.json_buffer ++ '\n' :: trimChars line0).length
        · cases hp : json_parse_obj
            (st.json_buffer ++ '\n' :: trimChars line0) with
          | some d =>
            rw [afterMutation_ok limits
              ⟨st.json_buffer ++ '\n' :: trimChars line0⟩
              d (by simp) h5 hp] at h
            simp at h
          | none =>
            rw [afterMutation_incomplete limits
              ⟨st.json_buffer ++ '\n' :: trimChars line0⟩
              (by simp) h5 hp] at h
            exact absurd h (by simp)
        · rw [afterMutation_too_large limits
            ⟨st.json_buffer ++ '\n' :: trimChars line0⟩ (by simp) h5] at h
          simp at h
          exact ⟨_, _, h.symm⟩
    · rw [process_line_too_large limits st line0 h1 h2] at h
      simp at h
      exact ⟨_, _, h.symm⟩
  · intro h4 h1 h2 h5 hp
    rw [process_line_cont limits st line0 h1 h2 h4]
    rw [afterMutation_incomplete limits
      ⟨st.json_buffer ++ '\n' :: trimChars line0⟩ (by simp) h5 hp]
    exact ⟨rfl, rfl⟩
  · intro h4 h1 h2 h3 hp
    rw [process_line_start limits st line0 h1 h2 h3 h4]
    rw [afterMutation_incomplete limits ⟨trimChars line0⟩ h1 h2 hp]
    exact ⟨rfl, rfl⟩

/-- Witness for C6 at concrete inputs: an oversized line (the only
fatal error shape), a failing continuation parse, and a failing fresh
accumulation. -/
theorem c6_witness :
    (∃ a b, ClaudeSDKError.Safety (SafetyError.LineTooLarge 4 3)
      = ClaudeSDKError.Safety (SafetyError.LineTooLarge a b))
    ∧ ((process_line SafetyLimits.default ⟨[lbrace]⟩ ['"', 'a', '"']).out
        = none
      ∧ (process_line SafetyLimits.default ⟨[lbrace]⟩
          ['"', 'a', '"']).state.json_buffer
        = [lbrace] ++ '\n' :: trimChars ['"', 'a', '"'])
    ∧ ((process_line SafetyLimits.default ⟨[]⟩ [lbrace]).out = none
      ∧ (process_line SafetyLimits.default ⟨[]⟩
          [lbrace]).state.json_buffer = trimChars [lbrace]) :=
  ⟨(c6_midstream ⟨3, 1000, 1000, 10, 10, 1000⟩ ⟨[lbrace]⟩
      ['a', 'b', 'c', 'd']).1 (ClaudeSDKError.Safety
        (SafetyError.LineTooLarge 4 3)) rfl,
   (c6_midstream SafetyLimits.default ⟨[lbrace]⟩ ['"', 'a', '"']).2.1
      (by decide) (by decide) (by decide) (by decide) rfl,
   (c6_midstream SafetyLimits.default ⟨[]⟩ [lbrace]).2.2
      rfl (by decide) (by decide) (Or.inl (by decide)) rfl⟩

/-- Claim C7: a complete single-line top-level JSON array starting an
empty accumulator yields `None` and leaves the buffer non-empty (the
string-keyed-map parse fails); while the buffer starts with `[`, no
successful record can ever be emitted (only `None` or `LineTooLarge`),
and any further non-empty in-size line is appended as a continuation. -/
theorem c7_array_line (limits : SafetyLimits) (line0 : List Char)
    (xs : List Json)
    (hhead : line0.head? = some lbrack)
    (hsize : line0.length ≤ limits.max_line_size)
    (_hval : json_parse_value line0 = some (Json.arr xs)) :
    ((process_line limits ⟨[]⟩ line0).out = none
      ∧ (process_line limits ⟨[]⟩ line0).state.json_buffer = trimChars line0
      ∧ trimChars line0 ≠ [])
    ∧ (∀ (st : TransportState) (l2 : List Char),
        st.json_buffer.head? = some lbrack →
        (process_line limits st l2).out = none
        ∨ ∃ a b, (process_line limits st l2).out
          = some (Except.error (ClaudeSDKError.Safety
              (SafetyError.LineTooLarge a b))))
    ∧ (∀ (st : TransportState) (l2 : List Char),
        st.json_buffer.head? = some lbrack → trimChars l2 ≠ [] →
        limits.is_line_size_safe (trimChars l2).length →
        limits.is_line_size_safe
          (st.json_buffer ++ '\n' :: trimChars l2).length →
        (process_line limits st l2).out = none
        ∧ (process_line limits st l2).state.json_buffer
          = st.json_buffer ++ '\n' :: trimChars l2) := by
  obtain ⟨hne, hth⟩ := trim_head line0 lbrack (by decide) hhead
  have hts : limits.is_line_size_safe (trimChars line0).length :=
    le_trans (trim_length_le line0) hsize
  have hpn : json_parse_obj (trimChars line0) = none :=
    json_parse_obj_lbrack (trimChars line0) hth
  refine ⟨?_, ?_, ?_⟩
  · rw [process_line_start limits ⟨[]⟩ line0 hne hts (Or.inr hth) rfl]
    rw [afterMutation_incomplete limits ⟨trimChars line0⟩ hne hts hpn]
    exact ⟨rfl, rfl, hne⟩
  · intro st l2 hb
    have hbne : st.json_buffer ≠ [] := by
      intro hx
      rw [hx] at hb
      exact Option.noConfusion hb
    by_cases h1 : trimChars l2 = []
    · rw [process_line_trim_empty limits st l2 h1]
      exact Or.inl rfl
    by_cases h2 : limits.is_line_size_safe (trimChars l2).length
    · rw [process_line_cont limits st l2 h1 h2 hbne]
      have hBh : (st.json_buffer ++ '\n' :: trimChars l2).head?
          = some lbrack := by
        obtain ⟨b0, brest, hbb⟩ : ∃ b0 brest, st.json_buffer = b0 :: brest := by
          cases hbx : st.json_buffer with
          | nil => exact absurd hbx hbne
          | cons b0 brest => exact ⟨b0, brest, rfl⟩
        rw [hbb] at hb ⊢
        simp only [List.head?_cons, Option.some.injEq] at hb
        rw [hb]
        rfl
      by_cases h5 : limits.is_line_size_safe
        (st.json_buffer ++ '\n' :: trimChars l2).length
      · rw [afterMutation_incomplete limits
          ⟨st.json_buffer ++ '\n' :: trimChars l2⟩ (by simp) h5
          (json_parse_obj_lbrack _ hBh)]
        exact Or.inl rfl
      · rw [afterMutation_too_large limits
          ⟨st.json_buffer ++ '\n' :: trimChars l2⟩ (by simp) h5]
        exact Or.inr ⟨_, _, rfl⟩
    · rw [process_line_too_large limits st l2 h1 h2]
      exact Or.inr ⟨_, _, rfl⟩
  · intro st l2 hb h1 h2 h5
    have hbne : st.json_buffer ≠ [] := by
      intro hx
      rw [hx] at hb
      exact Option.noConfusion hb
    have hBh : (st.json_buffer ++ '\n' :: trimChars l2).head?
        = some lbrack := by
      obtain ⟨b0, brest, hbb⟩ : ∃ b0 brest, st.json_buffer = b0 :: brest := by
        cases hbx : st.json_buffer with
        | nil => exact absurd hbx hbne
        | cons b0 brest => exact ⟨b0, brest, rfl⟩
      rw [hbb] at hb ⊢
      simp only [List.head?_cons, Option.some.injEq] at hb
      rw [hb]
      rfl
    rw [process_line_cont limits st l2 h1 h2 hbne]
    rw [afterMutation_incomplete limits
      ⟨st.json_buffer ++ '\n' :: trimChars l2⟩ (by simp) h5
      (json_parse_obj_lbrack _ hBh)]
    exact ⟨rfl, rfl⟩

/-- Witness for C7 at a concrete array line, with a subsequent complete
single-line object treated as a continuation. -/
theorem c7_witness :
    ((process_line SafetyLimits.default ⟨[]⟩
        [lbrack, '1', ',', '2', rbrack]).out = none
      ∧ (process_line SafetyLimits.default ⟨[]⟩
          [lbrack, '1', ',', '2', rbrack]).state.json_buffer
        = trimChars [lbrack, '1', ',', '2', rbrack]
      ∧ trimChars [lbrack, '1', ',', '2', rbrack] ≠ [])
    ∧ ((process_line SafetyLimits.default ⟨[lbrack, '1', rbrack]⟩
        [lbrace, rbrace]).out = none
      ∨ ∃ a b, (process_line SafetyLimits.default ⟨[lbrack, '1', rbrack]⟩
          [lbrace, rbrace]).out
        = some (Except.error (ClaudeSDKError.Safety
            (SafetyError.LineTooLarge a b))))
    ∧ ((process_line SafetyLimits.default ⟨[lbrack, '1', rbrack]⟩
        [lbrace, rbrace]).out = none
      ∧ (process_line SafetyLimits.default ⟨[lbrack, '1', rbrack]⟩
          [lbrace, rbrace]).state.json_buffer
        = [lbrack, '1', rbrack] ++ '\n' :: trimChars [lbrace, rbrace]) := by
  have hc := c7_array_line SafetyLimits.default [lbrack, '1', ',', '2', rbrack]
    [Json.num ['1'], Json.num ['2']] rfl (by decide) rfl
  exact ⟨hc.1, hc.2.1 ⟨[lbrack, '1', rbrack]⟩ [lbrace, rbrace] rfl,
    hc.2.2 ⟨[lbrack, '1', rbrack]⟩ [lbrace, rbrace] rfl (by decide)
      (by decide) (by decide)⟩

theorem is_line_size_safe_congr (l1 l2 : SafetyLimits) (n : Nat)
    (h : l1.max_line_size = l2.max_line_size) :
    l1.is_line_size_safe n ↔ l2.is_line_size_safe n := by
  unfold SafetyLimits.is_line_size_safe
  rw [h]

/-- The projections of `afterMutation` other than the advisory logs do
not depend on the limit fields that only feed the observability
channel. -/
theorem afterMutation_congr (l1 l2 : SafetyLimits) (st : TransportState)
    (h1 : l1.max_line_size = l2.max_line_size) :
    (afterMutation l1 st).out = (afterMutation l2 st).out
    ∧ (afterMutation l1 st).state = (afterMutation l2 st).state := by
  by_cases hb : st.json_buffer = []
  · have e1 : afterMutation l1 st = ⟨none, st, []⟩ := by
      unfold afterMutation
      rw [try_parse_empty l1 st hb]
      show (if l1.max_line_size / 2 < st.json_buffer.length then _ else _) = _
      rw [if_neg (by rw [hb]; simp)]
    have e2 : afterMutation l2 st = ⟨none, st, []⟩ := by
      unfold afterMutation
      rw [try_parse_empty l2 st hb]
      show (if l2.max_line_size / 2 < st.json_buffer.length then _ else _) = _
      rw [if_neg (by rw [hb]; simp)]
    rw [e1, e2]
    exact ⟨rfl, rfl⟩
  · by_cases hs : l1.is_line_size_safe st.json_buffer.length
    · have hs2 : l2.is_line_size_safe st.json_buffer.length :=
        (is_line_size_safe_congr l1 l2 _ h1).mp hs
      cases hp : json_parse_obj st.json_buffer with
      | some d =>
        rw [afterMutation_ok l1 st d hb hs hp,
          afterMutation_ok l2 st d hb hs2 hp]
        exact ⟨rfl, rfl⟩
      | none =>
        rw [afterMutation_incomplete l1 st hb hs hp,
          afterMutation_incomplete l2 st hb hs2 hp]
        exact ⟨rfl, rfl⟩
    · have hs2 : ¬ l2.is_line_size_safe st.json_buffer.length :=
        fun hx => hs ((is_line_size_safe_congr l1 l2 _ h1).mpr hx)
      rw [afterMutation_too_large l1 st hb hs,
        afterMutation_too_large l2 st hb hs2]
      rw [h1]
      exact ⟨rfl, rfl⟩

/-- Claim C9: the emitted item and the successor state of
`process_line` are identical across two runs whose `SafetyLimits`
differ only in `json_parse_timeout_ms`, `max_text_block_size`, or
`max_log_preview_chars` — the advisory conditions never change the
output sequence. -/
theorem c9_noninterference (l1 l2 : SafetyLimits) (st : TransportState)
    (line0 : List Char)
    (h1 : l1.max_line_size = l2.max_line_size)
    (_h2 : l1.max_buffer_size = l2.max_buffer_size)
    (_h3 : l1.max_buffered_messages = l2.max_buffered_messages) :
    (process_line l1 st line0).out = (process_line l2 st line0).out
    ∧ (process_line l1 st line0).state = (process_line l2 st line0).state := by
  by_cases hA : trimChars line0 = []
  · rw [process_line_trim_empty l1 st line0 hA,
      process_line_trim_empty l2 st line0 hA]
    exact ⟨rfl, rfl⟩
  by_cases hB : l1.is_line_size_safe (trimChars line0).length
  · have hB2 : l2.is_line_size_safe (trimChars line0).length :=
      (is_line_size_safe_congr l1 l2 _ h1).mp hB
    by_cases hD : st.json_buffer = []
    · by_cases hC : (trimChars line0).head? = some lbrace
        ∨ (trimChars line0).head? = some lbrack
      · rw [process_line_start l1 st line0 hA hB hC hD,
          process_line_start l2 st line0 hA hB2 hC hD]
        exact afterMutation_congr l1 l2 ⟨trimChars line0⟩ h1
      · rw [process_line_ignore l1 st line0 hA hB hC hD,
          process_line_ignore l2 st line0 hA hB2 hC hD]
        exact ⟨rfl, rfl⟩
    · rw [process_line_cont l1 st line0 hA hB hD,
        process_line_cont l2 st line0 hA hB2 hD]
      exact afterMutation_congr l1 l2
        ⟨st.json_buffer ++ '\n' :: trimChars line0⟩ h1
  · have hB2 : ¬ l2.is_line_size_safe (trimChars line0).length :=
      fun hx => hB ((is_line_size_safe_congr l1 l2 _ h1).mpr hx)
    rw [process_line_too_large l1 st line0 hA hB,
      process_line_too_large l2 st line0 hA hB2]
    rw [h1]
    exact ⟨rfl, rfl⟩

/-- Witness for C9: two limit configurations differing in all three
advisory-only fields give the same output and state on a concrete
parsed line. -/
theorem c9_witness :
    (process_line ⟨1000, 500, 800, 20, 40, 5000⟩ ⟨[]⟩
        [lbrace, '"', 'a', '"', ':', '1', rbrace]).out
      = (process_line ⟨1000, 1, 800, 99, 40, 1⟩ ⟨[]⟩
        [lbrace, '"', 'a', '"', ':', '1', rbrace]).out
    ∧ (process_line ⟨1000, 500, 800, 20, 40, 5000⟩ ⟨[]⟩
        [lbrace, '"', 'a', '"', ':', '1', rbrace]).state
      = (process_line ⟨1000, 1, 800, 99, 40, 1⟩ ⟨[]⟩
        [lbrace, '"', 'a', '"', ':', '1', rbrace]).state :=
  c9_noninterference ⟨1000, 500, 800, 20, 40, 5000⟩ ⟨1000, 1, 800, 99, 40, 1⟩
    ⟨[]⟩ [lbrace, '"', 'a', '"', ':', '1', rbrace] rfl rfl rfl

theorem runLines_cons (limits : SafetyLimits) (st : TransportState)
    (l : List Char) (ls : List (List Char)) :
    runLines limits st (l :: ls)
      = ((process_line limits st l).out
          :: (runLines limits (process_line limits st l).state ls).1,
        (runLines limits (process_line limits st l).state ls).2) := rfl

/-- Accumulation run: while every cumulative newline-join of the
trimmed lines fails to parse and stays within the ceiling, each call
returns `None` and extends the buffer; when the final join parses, the
last call emits the record and clears the buffer. -/
theorem runLines_accum (limits : SafetyLimits) (v : Record) :
    ∀ (ls : List (List Char)) (b : List Char), b ≠ [] → ls ≠ [] →
    (∀ l ∈ ls, trimChars l ≠ []) →
    (∀ l ∈ ls, limits.is_line_size_safe (trimChars l).length) →
    (∀ k, k ≤ ls.length →
      limits.is_line_size_safe (joinFrom b (ls.take k)).length) →
    (∀ k, k < ls.length → json_parse_obj (joinFrom b (ls.take k)) = none) →
    json_parse_obj (joinFrom b ls) = some v →
    (runLines limits ⟨b⟩ ls).1
      = List.replicate (ls.length - 1) none ++ [some (Except.ok v)]
    ∧ (runLines limits ⟨b⟩ ls).2.json_buffer = [] := by
  intro ls
  induction ls with
  | nil =>
    intro b _ hnil
    exact absurd rfl hnil
  | cons l ls ih =>
    intro b hb _ hne hsize hbuf hmid hfinal
    have htne : trimChars l ≠ [] := hne l (by simp)
    have htsize := hsize l (by simp)
    have hb1 : limits.is_line_size_safe (b ++ '\n' :: trimChars l).length := by
      have := hbuf 1 (by simp)
      simpa [joinFrom] using this
    have hstep : process_line limits ⟨b⟩ l
        = afterMutation limits ⟨b ++ '\n' :: trimChars l⟩ :=
      process_line_cont limits ⟨b⟩ l htne htsize hb
    cases ls with
    | nil =>
      have hp : json_parse_obj (b ++ '\n' :: trimChars l) = some v := by
        simpa [joinFrom] using hfinal
      have ham := afterMutation_ok limits ⟨b ++ '\n' :: trimChars l⟩ v
        (by simp) hb1 hp
      constructor
      · simp [runLines, hstep, ham]
      · simp [runLines, hstep, ham]
    | cons l2 ls2 =>
      have hp : json_parse_obj (b ++ '\n' :: trimChars l) = none := by
        have := hmid 1 (by simp)
        simpa [joinFrom] using this
      have ham := afterMutation_incomplete limits ⟨b ++ '\n' :: trimChars l⟩
        (by simp) hb1 hp
      have ihh := ih (b ++ '\n' :: trimChars l) (by simp) (by simp)
        (fun x hx => hne x (by simp [hx]))
        (fun x hx => hsize x (by simp [hx]))
        (fun k hk => by
          have := hbuf (k + 1) (by simpa using Nat.succ_le_succ hk)
          simpa [joinFrom] using this)
        (fun k hk => by
          have := hmid (k + 1) (by simpa using Nat.succ_lt_succ hk)
          simpa [joinFrom] using this)
        (by simpa [joinFrom] using hfinal)
      constructor
      · rw [runLines_cons, hstep, ham]
        show none :: (runLines limits ⟨b ++ '\n' :: trimChars l⟩
          (l2 :: ls2)).1 = _
        rw [ihh.1]
        simp [List.replicate_succ]
      · rw [runLines_cons, hstep, ham]
        show (runLines limits ⟨b ++ '\n' :: trimChars l⟩
          (l2 :: ls2)).2.json_buffer = []
        exact ihh.2

/-- Claim C2 (counterexample): a valid JSON object split mid-string
into two in-size lines — the concatenation parses, the first line
begins with `{` — yet the reconstructor returns `None` on both calls
(the buffer joins the trimmed lines with a newline, which is an illegal
control character inside the string), never emitting the record. -/
theorem c2_counterexample :
    (2 : Nat) ≤ ([[lbrace, '"', 'a', '"', ':', '"', 'x'],
      ['y', '"', rbrace]] : List (List Char)).length
    ∧ ([lbrace, '"', 'a', '"', ':', '"', 'x'] : List Char).head?
      = some lbrace
    ∧ ([lbrace, '"', 'a', '"', ':', '"', 'x'] : List Char).length
      ≤ SafetyLimits.default.max_line_size
    ∧ (['y', '"', rbrace] : List Char).length
      ≤ SafetyLimits.default.max_line_size
    ∧ json_parse_obj ([lbrace, '"', 'a', '"', ':', '"', 'x']
        ++ ['y', '"', rbrace])
      = some [(['a'], Json.str ['x', 'y'])]
    ∧ (runLines SafetyLimits.default ⟨[]⟩
        [[lbrace, '"', 'a', '"', ':', '"', 'x'], ['y', '"', rbrace]]).1
      = [none, none]
    ∧ (runLines SafetyLimits.default ⟨[]⟩
        [[lbrace, '"', 'a', '"', ':', '"', 'x'], ['y', '"', rbrace]]).1
      ≠ List.replicate 1 none
        ++ [some (Except.ok [(['a'], Json.str ['x', 'y'])])] := by
  refine ⟨by decide, by decide, by decide, by decide, rfl, rfl, ?_⟩
  intro h
  have h0 : (runLines SafetyLimits.default ⟨[]⟩
      [[lbrace, '"', 'a', '"', ':', '"', 'x'], ['y', '"', rbrace]]).1
      = [none, none] := rfl
  rw [h0] at h
  simp at h

/-- Claim C2 (amended): for `n ≥ 2` lines whose first trimmed line
begins with `{`, each non-empty after trimming and within
`max_line_size`, where every proper cumulative newline-join of the
trimmed lines fails to parse and stays within the ceiling, and the full
join parses to `v`: the first `n-1` calls return `None` and the last
emits `v`, leaving the buffer empty. -/
theorem c2_amended (limits : SafetyLimits) (l0 : List Char)
    (ls : List (List Char)) (v : Record)
    (hn : ls ≠ [])
    (hhead : (trimChars l0).head? = some lbrace)
    (hsize0 : l0.length ≤ limits.max_line_size)
    (hne : ∀ l ∈ ls, trimChars l ≠ [])
    (hsize : ∀ l ∈ ls, limits.is_line_size_safe (trimChars l).length)
    (hbuf : ∀ k, k ≤ ls.length →
      limits.is_line_size_safe (joinFrom (trimChars l0) (ls.take k)).length)
    (hmid : ∀ k, k < ls.length →
      json_parse_obj (joinFrom (trimChars l0) (ls.take k)) = none)
    (hfinal : json_parse_obj (joinFrom (trimChars l0) ls) = some v) :
    (runLines limits ⟨[]⟩ (l0 :: ls)).1
      = List.replicate ls.length none ++ [some (Except.ok v)]
    ∧ (runLines limits ⟨[]⟩ (l0 :: ls)).2.json_buffer = [] := by
  obtain ⟨m, ms, rfl⟩ : ∃ m ms, ls = m :: ms := by
    cases hx : ls with
    | nil => exact absurd hx hn
    | cons m ms => exact ⟨m, ms, rfl⟩
  have h0ne : trimChars l0 ≠ [] := by
    intro hx
    rw [hx] at hhead
    exact Option.noConfusion hhead
  have h0size : limits.is_line_size_safe (trimChars l0).length :=
    le_trans (trim_length_le l0) hsize0
  have hp0 : json_parse_obj (trimChars l0) = none := by
    have := hmid 0 (by simp)
    simpa [joinFrom] using this
  have hstep : process_line limits ⟨[]⟩ l0
      = afterMutation limits ⟨trimChars l0⟩ :=
    process_line_start limits ⟨[]⟩ l0 h0ne h0size (Or.inl hhead) rfl
  have ham := afterMutation_incomplete limits ⟨trimChars l0⟩ h0ne h0size hp0
  have hacc := runLines_accum limits v (m :: ms) (trimChars l0) h0ne
    (by simp) hne hsize hbuf hmid hfinal
  constructor
  · rw [runLines_cons, hstep, ham]
    show none :: (runLines limits ⟨trimChars l0⟩ (m :: ms)).1 = _
    rw [hacc.1]
    simp [List.replicate_succ]
  · rw [runLines_cons, hstep, ham]
    show (runLines limits ⟨trimChars l0⟩ (m :: ms)).2.json_buffer = []
    exact hacc.2

/-- Witness for C2 (amended): a two-line pretty-printed object. -/
theorem c2_witness :
    (runLines SafetyLimits.default ⟨[]⟩
        [[lbrace], ['"', 'a', '"', ':', '1', rbrace]]).1
      = [none, some (Except.ok [(['a'], Json.num ['1'])])]
    ∧ (runLines SafetyLimits.default ⟨[]⟩
        [[lbrace], ['"', 'a', '"', ':', '1', rbrace]]).2.json_buffer = [] :=
  c2_amended SafetyLimits.default [lbrace] [['"', 'a', '"', ':', '1', rbrace]]
    [(['a'], Json.num ['1'])]
    (by decide)
    (by decide)
    (by decide)
    (by intro l hl; simp at hl; subst hl; decide)
    (by intro l hl; simp at hl; subst hl; decide)
    (by intro k hk
        simp only [List.length_cons, List.length_nil] at hk
        interval_cases k
        · decide
        · decide)
    (by intro k hk
        simp only [List.length_cons, List.length_nil] at hk
        interval_cases k
        · rfl)
    rfl
